import Mathlib

/-!
A shallow embedding, in Lean 4, of the schemaflow library
(src/schemaflow: types.py, ops.py, pipe.py, pipeline.py, exceptions.py).

Conventions of the embedding:
* Python dictionaries are association lists `List (String × α)`; iteration
  order is list order, lookup returns the first matching key, insertion of an
  existing key replaces in place, insertion of a new key appends at the end
  (Python 3.7+ dict semantics).
* Python classes, numpy dtypes and similar opaque base types are `String`
  tags; two classes/dtypes are equal exactly when their tags are equal.
* The `raise_` flag and Python exception propagation are modelled with
  `Except Exn (List Exn)`: `.error e` is a raised exception, `.ok l` is the
  returned list of collected violations.
* The location strings of exceptions.py are modelled by the structured type
  `Loc`; each constructor corresponds to one format string of the source.
-/

deriving instance DecidableEq for Except

namespace SchemaFlow

/-! ## Dictionary helpers (Python dict on association lists) -/

/-- First-occurrence lookup, as Python `d[k]` / `d.get(k)`. -/
def dlookup {α : Type} (k : String) (d : List (String × α)) : Option α :=
  match d with
  | [] => none
  | kv :: rest => if kv.1 == k then some kv.2 else dlookup k rest

/-- Python `k in d`. -/
def dmem {α : Type} (k : String) (d : List (String × α)) : Bool :=
  (dlookup k d).isSome

/-- Python `d.keys()` (in insertion order). -/
def dkeys {α : Type} (d : List (String × α)) : List String :=
  d.map Prod.fst

/-- Python `d[k] = v`: replace in place when the key exists, else append. -/
def dinsert {α : Type} (k : String) (v : α) (d : List (String × α)) :
    List (String × α) :=
  if dmem k d then d.map (fun kv => if kv.1 == k then (k, v) else kv)
  else d ++ [(k, v)]

/-- Python `d.update(e)`. -/
def dupdate {α : Type} (d e : List (String × α)) : List (String × α) :=
  e.foldl (fun acc kv => dinsert kv.1 kv.2 acc) d

/-- Python set equality of two key sets (`set(a) == set(b)`). -/
def key_set_eq (a b : List String) : Bool :=
  a.all (fun k => b.contains k) && b.all (fun k => a.contains k)

/-! ## Values, Types, and exceptions -/

/-- A runtime Python value, abstracted to the structure the type system
inspects: a primitive object of some class, a list, a tuple, a numpy array
(class tag `ndarray`) with a dtype and a concrete shape, or a pandas frame
(class tag `DataFrame`) with a column-name to dtype map. -/
inductive Value : Type where
  | prim (tag : String)
  | vlist (items : List Value)
  | vtuple (items : List Value)
  | varray (dtype : String) (shape : List Nat)
  | vframe (cols : List (String × String))

/-- The Python class of a value (`type(v)`), as a tag. -/
def classTag : Value → String
  | .prim t => t
  | .vlist _ => "list"
  | .vtuple _ => "tuple"
  | .varray _ _ => "ndarray"
  | .vframe _ => "DataFrame"

/-- Python `issubclass(t, b)`: every class is a subclass of itself and of
`object`. -/
def pySubclass (t b : String) : Bool :=
  t == b || b == "object"

/-- Python `isinstance(v, b)`. -/
def isinstanceOf (v : Value) (b : String) : Bool :=
  pySubclass (classTag v) b

/-- The schemaflow `Type` variants (types.py): `_LiteralType` wrapping a base
class, the `_Container` subclasses `List` and `Tuple` wrapping an item Type,
`Array` wrapping a dtype (its `_items_type` is always a `_LiteralType`) and an
optional declared shape whose `none` dimensions are wildcards, and the
`_DataFrame` variant (`PandasDataFrame`) wrapping a column-name to base-type
map (its column types are `_LiteralType`s, as built by `__init__` and
`_get_schema`). -/
inductive Ty : Type where
  | lit (base : String)
  | tlist (item : Ty)
  | ttuple (item : Ty)
  | array (dtype : String) (shape : Option (List (Option Nat)))
  | frame (schema : List (String × String))
  deriving DecidableEq

/-- The Python class of a Type instance (`type(t)`), used by the base
`Type._check_as_type` comparison. -/
def tyClass : Ty → String
  | .lit _ => "_LiteralType"
  | .tlist _ => "List"
  | .ttuple _ => "Tuple"
  | .array _ _ => "Array"
  | .frame _ => "PandasDataFrame"

/-- What `item_type.base_type` evaluates to on a container item Type:
for `_LiteralType` the wrapped base class (a `@property`); for every other
variant `base_type` is a classmethod, so the attribute access yields a bound
method of that class (two such bound methods are equal exactly when they are
bound to the same class, and a bound method never equals a class). -/
inductive ItemTag : Type where
  | base (b : String)
  | boundMethod (cls : String)
  deriving DecidableEq

/-- `item_type.base_type` of a container item. -/
def item_tag : Ty → ItemTag
  | .lit b => .base b
  | .tlist _ => .boundMethod "List"
  | .ttuple _ => .boundMethod "Tuple"
  | .array _ _ => .boundMethod "Array"
  | .frame _ => .boundMethod "PandasDataFrame"

/-- One entry of the location trail of an exception (exceptions.py builds these as
strings; each constructor stands for one format string of the source):
* `inFit` = the string `in fit`
* `inTransform` = the string `in transform`
* `argFit k` = `argument <k> in fit`
* `paramFit k` = `in parameter <k> of fit`
* `argTransform k` = `in argument <k> of transform`
* `column c` = `column <c>` (from `_DataFrame._check_schema`)
* `ofPipe name cls` = `of pipe <name> of <cls>` (Pipeline stages). -/
inductive Loc : Type where
  | inFit
  | inTransform
  | argFit (k : String)
  | paramFit (k : String)
  | argTransform (k : String)
  | column (c : String)
  | ofPipe (name cls : String)
  deriving DecidableEq

/-- A payload object carried by an exception: a class/dtype/string tag, a
Type instance, or a set of keys (modelled as the key list in order). -/
inductive PyObj : Type where
  | s (tag : String)
  | ty (t : Ty)
  | keys (ks : List String)
  deriving DecidableEq

/-- The exception taxonomy of exceptions.py. `pyTypeError` is not a
`SchemaFlowError`: it models the `TypeError` that `Array._is_valid_shape`
raises via `len(None)` when a shaped Array Type is compared against an Array
Type whose shape is `None`; it carries no location trail and is never caught
by the `except SchemaFlowError` clauses. -/
inductive Exn : Type where
  | WrongType (expected actual : PyObj) (locations : List Loc)
  | WrongSchema (expected passed : PyObj) (locations : List Loc)
  | WrongParameter (expected passed : PyObj) (locations : List Loc)
  | WrongShape (expected : Option (List (Option Nat)))
      (actual : List (Option Nat)) (locations : List Loc)
  | NotFitted (cls key : String)
  | pyTypeError
  deriving DecidableEq

/-- `e.locations.append(l)` on a `SchemaFlowError`; a `NotFitted` error never
flows through the appending sites of the checked paths, and `pyTypeError`
(not a `SchemaFlowError`) passes through the `except SchemaFlowError` clauses
untouched. -/
def Exn.withLoc : Exn → Loc → Exn
  | .WrongType a b ls, l => .WrongType a b (ls ++ [l])
  | .WrongSchema a b ls, l => .WrongSchema a b (ls ++ [l])
  | .WrongParameter a b ls, l => .WrongParameter a b (ls ++ [l])
  | .WrongShape a b ls, l => .WrongShape a b (ls ++ [l])
  | .NotFitted c k, _ => .NotFitted c k
  | .pyTypeError, _ => .pyTypeError

/-! ## Shape compatibility (Array._is_valid_shape) -/

/-- One dimension of `_is_valid_shape`: the declared dimension is `None`
(wildcard) or equals the candidate dimension.  Candidate dimensions are
`Option Nat` because in type-mode comparison the declared shape of the candidate
Array Type may itself contain `None` entries (a concrete instance shape
is injected with `.map some`); Python `None != n` makes a `none` candidate
dimension fail a non-wildcard requirement. -/
def dim_ok (req : Option Nat) (d : Option Nat) : Bool :=
  match req with
  | none => true
  | some n => d == some n

/-- `Array._is_valid_shape` (types.py lines 353-360): a declared shape of
`None` accepts anything; otherwise equal rank and per-dimension `dim_ok`. -/
def is_valid_shape (declared : Option (List (Option Nat)))
    (shape : List (Option Nat)) : Bool :=
  match declared with
  | none => true
  | some ds => ds.length == shape.length && (ds.zip shape).all fun p => dim_ok p.1 p.2

/-! ## check_schema: instance mode and type mode -/

/-- `_DataFrame._check_schema` (types.py lines 159-176), shared by the
instance and type modes: iterate the declared columns only; a missing column
yields `WrongSchema(column, set(keys))`; a present column with a different
base type yields `WrongType(expected, actual)` whose location trail carries
the column name (the source passes the string `column <c>` directly as the
`locations` argument). -/
def check_schema_cols (decl cand : List (String × String)) (raiseF : Bool) :
    Except Exn (List Exn) :=
  match decl with
  | [] => .ok []
  | (c, t) :: rest =>
    match dlookup c cand with
    | none =>
      let e := Exn.WrongSchema (.s c) (.keys (dkeys cand)) []
      if raiseF then .error e
      else
        match check_schema_cols rest cand raiseF with
        | .error e2 => .error e2
        | .ok es => .ok (e :: es)
    | some t2 =>
      if t2 != t then
        let e := Exn.WrongType (.s t) (.s t2) [.column c]
        if raiseF then .error e
        else
          match check_schema_cols rest cand raiseF with
          | .error e2 => .error e2
          | .ok es => .ok (e :: es)
      else check_schema_cols rest cand raiseF

/-- `Type._check_as_type` (types.py lines 75-81) together with the
per-variant overrides `_Container._check_as_type`, `Array._check_as_type`
and `_DataFrame._check_as_type`: first compare the exact Python classes
(`WrongType(instance, self)` on mismatch), then the variant-specific part. -/
def check_as_type (self other : Ty) (raiseF : Bool) : Except Exn (List Exn) :=
  if tyClass other != tyClass self then
    let e := Exn.WrongType (.ty other) (.ty self) []
    if raiseF then .error e else .ok [e]
  else
    match self, other with
    | .lit _, _ => .ok []
    | .tlist it, .tlist it2 =>
      -- _Container._check_as_type: compare the `base_type` of each item type
      if item_tag it != item_tag it2 then
        let e := Exn.WrongType (.ty self) (.ty other) []
        if raiseF then .error e else .ok [e]
      else .ok []
    | .ttuple it, .ttuple it2 =>
      if item_tag it != item_tag it2 then
        let e := Exn.WrongType (.ty self) (.ty other) []
        if raiseF then .error e else .ok [e]
      else .ok []
    | .array dt shp, .array dt2 shp2 =>
      -- Array._check_as_type: the container comparison (the item types are
      -- always _LiteralTypes wrapping the dtypes), then the shape check,
      -- which runs only when no exception was produced so far
      if dt != dt2 then
        let e := Exn.WrongType (.ty self) (.ty other) []
        if raiseF then .error e else .ok [e]
      else
        match shp2 with
        | none =>
          match shp with
          | none => .ok []
          | some _ => .error .pyTypeError  -- len(None) in _is_valid_shape
        | some s2 =>
          if is_valid_shape shp s2 then .ok []
          else
            let e := Exn.WrongShape shp s2 []
            if raiseF then .error e else .ok [e]
    | .frame d, .frame d2 =>
      -- _DataFrame._check_as_type: compare the declared column maps
      check_schema_cols d d2 raiseF
    | _, _ => .ok []  -- unreachable: equal classes force equal constructors

mutual

/-- `Type.check_schema` dispatched to instance mode: the per-variant
`_check_as_instance` implementations of types.py. -/
def check_as_instance : Ty → Value → Bool → Except Exn (List Exn)
  | .lit b, v, raiseF =>
    -- _LiteralType._check_as_instance
    if isinstanceOf v b then .ok []
    else
      let e := Exn.WrongType (.s b) (.s (classTag v)) []
      if raiseF then .error e else .ok [e]
  | .tlist it, v, raiseF =>
    -- _Container._check_as_instance with base_type list
    match v with
    | .vlist vs => check_items it vs raiseF
    | _ =>
      let e := Exn.WrongType (.s "list") (.s (classTag v)) []
      if raiseF then .error e else .ok [e]
  | .ttuple it, v, raiseF =>
    match v with
    | .vtuple vs => check_items it vs raiseF
    | _ =>
      let e := Exn.WrongType (.s "tuple") (.s (classTag v)) []
      if raiseF then .error e else .ok [e]
  | .array dt shp, v, raiseF =>
    -- Array._check_as_instance (types.py lines 331-351)
    match v with
    | .varray dt2 s =>
      if dt2 == dt then
        if is_valid_shape shp (s.map some) then .ok []
        else
          let e := Exn.WrongShape shp (s.map some) []
          if raiseF then .error e else .ok [e]
      else
        let e := Exn.WrongType (.s dt) (.s dt2) []
        if raiseF then .error e else .ok [e]
    | _ =>
      let e := Exn.WrongType (.s "ndarray") (.s (classTag v)) []
      if raiseF then .error e else .ok [e]
  | .frame d, v, raiseF =>
    -- _DataFrame._check_as_instance (types.py lines 184-190)
    match v with
    | .vframe cols => check_schema_cols d cols raiseF
    | _ =>
      let e := Exn.WrongType (.s "DataFrame") (.s (classTag v)) []
      if raiseF then .error e else .ok [e]

/-- The element loop of `_Container._check_as_instance`: check every element
against the item Type, accumulating the violations (a raised exception
propagates). -/
def check_items : Ty → List Value → Bool → Except Exn (List Exn)
  | _, [], _ => .ok []
  | t, v :: vs, raiseF =>
    match check_as_instance t v raiseF with
    | .error e => .error e
    | .ok es =>
      match check_items t vs raiseF with
      | .error e => .error e
      | .ok es2 => .ok (es ++ es2)

end

/-- A candidate passed to `check_schema`: either a Type descriptor or a live
value. -/
inductive Candidate : Type where
  | ty (t : Ty)
  | val (v : Value)

/-- `Type.check_schema` (types.py lines 83-94): dispatch to type-mode
comparison when the candidate is itself a Type, else to instance-mode
validation. -/
def check_schema (t : Ty) (c : Candidate) (raiseF : Bool) :
    Except Exn (List Exn) :=
  match c with
  | .ty u => check_as_type t u raiseF
  | .val v => check_as_instance t v raiseF

/-! ## Schema inference -/

/-- The item-class inference of `_Container.infer` (types.py lines 249-259):
`object` for an empty container, the common element class when all elements
share one, else `object`. -/
def container_infer_tag (vs : List Value) : String :=
  match vs with
  | [] => "object"
  | v :: rest =>
    if rest.all (fun u => classTag u == classTag v) then classTag v
    else "object"

/-- The per-variant `infer` classmethods applied to a value of the matching
class: `List.infer`/`Tuple.infer` (via `_Container.infer`), `Array.infer`
(types.py lines 315-319: the dtype and concrete shape of the instance), and
`_DataFrame.infer` (the column schema of the instance).  A primitive value matches
no inferring variant (`_LiteralType` is underscore-private and defines no
`infer`), hence `none`. -/
def infer_value : Value → Option Ty
  | .prim _ => none
  | .vlist vs => some (.tlist (.lit (container_infer_tag vs)))
  | .vtuple vs => some (.ttuple (.lit (container_infer_tag vs)))
  | .varray dt s => some (.array dt (some (s.map some)))
  | .vframe cols => some (.frame cols)

/-! ## Schema operations (ops.py) -/

/-- A column-level Operation inside `ModifyDataFrame`: `Set` installs a
`_LiteralType` at the column, `Drop` removes the column. -/
inductive ColOp : Type where
  | cset (b : String)
  | cdrop
  deriving DecidableEq

/-- The kind of an `Operation` (ops.py): `Set` (its `value_type` is always a
`_LiteralType`, by coercion in `__init__`), `Drop`, or `ModifyDataFrame`
holding a column-name to column-operation map. -/
inductive OpKind : Type where
  | set (b : String)
  | drop
  | modifyFrame (colOps : List (String × ColOp))
  deriving DecidableEq

/-- A value of the `transform_modifies` dictionary of a Pipe: a raw literal class
(coerced to `_LiteralType` when applied), a Type instance (replacement), or
an `Operation` instance.  An `Operation` carries an object-identity token
`oid` because `Operation` defines no `__eq__`, so Python compares such values
by identity, whereas `Type.__eq__` is structural. -/
inductive ModValue : Type where
  | raw (b : String)
  | ty (t : Ty)
  | op (k : OpKind) (oid : Nat)
  deriving DecidableEq

/-- Python `a != b` on `transform_modifies` values: structural on classes and
Types (`Type.__eq__`), object identity on `Operation`s, and always unequal
across kinds. -/
def modValueNe (a b : ModValue) : Bool :=
  match a, b with
  | .raw x, .raw y => x != y
  | .ty x, .ty y => x != y
  | .op _ i, .op _ j => i != j
  | _, _ => true

/-- A schema dictionary: field name to Type. -/
abbrev Schema := List (String × Ty)

/-- Apply one column operation to the column map of a frame (the `Set.transform`
and `Drop.transform` of ops.py acting on `instance.schema`). -/
def apply_col_op (c : String) (o : ColOp) (cols : List (String × String)) :
    List (String × String) :=
  match o with
  | .cset b => dinsert c b cols
  | .cdrop => cols.filter (fun kv => kv.1 != c)

/-- One step of `Pipe._transform_schema` (pipe.py lines 219-227): an
`Operation` is applied via its `transform`, any other value is coerced to a
Type and installed at the key.  `Set.transform` installs the stored
`_LiteralType`; `Drop.transform` rebuilds the schema without the key;
`ModifyDataFrame.transform` edits the column map of the frame Type stored at
the key in place (when the key is absent it mutates a fresh `_DataFrame({})`
that is then discarded, leaving the schema unchanged; on a non-frame Type the
source would raise `AttributeError` reading `.schema` -- no claim exercises
that path, the schema is left unchanged here). -/
def apply_op (k : String) (v : ModValue) (schema : Schema) : Schema :=
  match v with
  | .raw b => dinsert k (.lit b) schema
  | .ty t => dinsert k t schema
  | .op (.set b) _ => dinsert k (.lit b) schema
  | .op .drop _ => schema.filter (fun kv => kv.1 != k)
  | .op (.modifyFrame colOps) _ =>
    match dlookup k schema with
    | some (.frame cols) =>
      dinsert k (.frame (colOps.foldl (fun cs co => apply_col_op co.1 co.2 cs) cols)) schema
    | some _ => schema
    | none => schema

/-! ## Pipe (pipe.py) -/

/-- A data or parameter dictionary passed to the checks: each value is either
a Type descriptor or a live value. -/
abbrev CandMap := List (String × Candidate)

/-- The declaration surface and state of a `Pipe` (pipe.py): the required-fit
schema `fit_data`, the required-transform schema `transform_data`, the fit
parameters contract `fit_parameters`, the declared output `transform_modifies`,
and the mutable `state` populated by `fit`.  Declared types are normalised to
`Ty` (the source coerces raw classes through `_get_type` at every use).
`className` models `self.__class__.__name__`. -/
structure Pipe : Type where
  className : String := "Pipe"
  fit_data : List (String × Ty) := []
  transform_data : List (String × Ty) := []
  fit_parameters : List (String × Ty) := []
  transform_modifies : List (String × ModValue) := []
  state : List (String × Value) := []

/-- `Pipe.__getitem__` (pipe.py lines 75-78): reading an absent state key
raises `NotFittedError(self, key)`, which identifies the pipe by its class
name and the missing key. -/
def Pipe.getitem (p : Pipe) (k : String) : Except Exn Value :=
  match dlookup k p.state with
  | none => .error (.NotFitted p.className k)
  | some v => .ok v

/-- `Pipe.__setitem__` (pipe.py lines 72-73): writing is unrestricted. -/
def Pipe.setitem (p : Pipe) (k : String) (v : Value) : Pipe :=
  { p with state := dinsert k v p.state }

/-- The field loop of `check_fit` over `fit_data` (pipe.py lines 153-159):
note the source calls `check_schema(data[key])` WITHOUT forwarding `raise_`,
so these violations are always collected; each gets `argument <k> in fit`
appended to its trail. -/
def check_data_loop (decl : List (String × Ty)) (data : CandMap) :
    Except Exn (List Exn) :=
  match decl with
  | [] => .ok []
  | (k, t) :: rest =>
    match dlookup k data with
    | none => check_data_loop rest data
    | some c =>
      match check_schema t c false with
      | .error e => .error e
      | .ok es =>
        match check_data_loop rest data with
        | .error e => .error e
        | .ok more => .ok (es.map (fun e => e.withLoc (.argFit k)) ++ more)

/-- The parameter loop of `check_fit` (pipe.py lines 172-182): forwards
`raise_`, and the `except SchemaFlowError` clause appends
`in parameter <k> of fit` to a raised violation before re-raising. -/
def check_param_loop (decl : List (String × Ty)) (par : CandMap)
    (raiseF : Bool) : Except Exn (List Exn) :=
  match decl with
  | [] => .ok []
  | (k, t) :: rest =>
    match dlookup k par with
    | none => check_param_loop rest par raiseF
    | some c =>
      match check_schema t c raiseF with
      | .error e => .error (e.withLoc (.paramFit k))
      | .ok es =>
        match check_param_loop rest par raiseF with
        | .error e => .error e
        | .ok more => .ok (es.map (fun e => e.withLoc (.paramFit k)) ++ more)

/-- `Pipe.check_fit` (pipe.py lines 129-184): missing required data keys give
one `WrongSchema` carrying the full required and passed key sets (raised when
strict); the `fit_data` field loop collects type violations (never raising,
see `check_data_loop`); the parameter-name sets must be exactly equal, else
one `WrongParameter` (raised when strict); the parameter loop forwards the
strictness flag. -/
def check_fit (p : Pipe) (data par : CandMap) (raiseF : Bool) :
    Except Exn (List Exn) :=
  let missing := (dkeys p.fit_data).any (fun k => !(dmem k data))
  let ws := Exn.WrongSchema (.keys (dkeys p.fit_data)) (.keys (dkeys data)) [.inFit]
  if missing && raiseF then .error ws
  else
    let exc0 : List Exn := if missing then [ws] else []
    match check_data_loop p.fit_data data with
    | .error e => .error e
    | .ok exc1 =>
      let pmis := !(key_set_eq (dkeys par) (dkeys p.fit_parameters))
      let wp := Exn.WrongParameter (.keys (dkeys p.fit_parameters)) (.keys (dkeys par)) [.inFit]
      if pmis && raiseF then .error wp
      else
        let exc2 : List Exn := if pmis then [wp] else []
        match check_param_loop p.fit_parameters par raiseF with
        | .error e => .error e
        | .ok exc3 => .ok (exc0 ++ exc1 ++ exc2 ++ exc3)

/-- The field loop of `check_transform` over `transform_data` (pipe.py lines
206-216): unlike the fit data loop it forwards `raise_`, and the `except`
clause appends `in argument <k> of transform` before re-raising. -/
def check_transform_loop (decl : List (String × Ty)) (data : CandMap)
    (raiseF : Bool) : Except Exn (List Exn) :=
  match decl with
  | [] => .ok []
  | (k, t) :: rest =>
    match dlookup k data with
    | none => check_transform_loop rest data raiseF
    | some c =>
      match check_schema t c raiseF with
      | .error e => .error (e.withLoc (.argTransform k))
      | .ok es =>
        match check_transform_loop rest data raiseF with
        | .error e => .error e
        | .ok more => .ok (es.map (fun e => e.withLoc (.argTransform k)) ++ more)

/-- `Pipe.check_transform` (pipe.py lines 186-217). -/
def check_transform (p : Pipe) (data : CandMap) (raiseF : Bool) :
    Except Exn (List Exn) :=
  let missing := (dkeys p.transform_data).any (fun k => !(dmem k data))
  let ws := Exn.WrongSchema (.keys (dkeys p.transform_data)) (.keys (dkeys data)) [.inTransform]
  if missing && raiseF then .error ws
  else
    let exc0 : List Exn := if missing then [ws] else []
    match check_transform_loop p.transform_data data raiseF with
    | .error e => .error e
    | .ok exc1 => .ok (exc0 ++ exc1)

/-- `Pipe._transform_schema` (pipe.py lines 219-227): apply every declared
output Operation/replacement in declaration order. -/
def transform_schema_ops (p : Pipe) (schema : Schema) : Schema :=
  p.transform_modifies.foldl (fun s kv => apply_op kv.1 kv.2 s) schema

/-- Lift a schema to the candidate map passed to `check_transform` (every
value is a Type descriptor). -/
def schema_as_data (schema : Schema) : CandMap :=
  schema.map (fun kv => (kv.1, Candidate.ty kv.2))

/-- `Pipe.transform_schema` (pipe.py lines 229-237): first `check_transform`
in fail-fast mode, then `_transform_schema`. -/
def transform_schema (p : Pipe) (schema : Schema) : Except Exn Schema :=
  match check_transform p (schema_as_data schema) true with
  | .error e => .error e
  | .ok _ => .ok (transform_schema_ops p schema)

/-! ## Pipeline (pipeline.py) -/

/-- The required-fit or required-transform schema a stage contributes to
`Pipeline.fit_requires` (pipeline.py lines 53-56): the required-fit
schema of the stage, or its required-transform schema when it declares no fit
requirement. -/
def required_of (p : Pipe) : List (String × Ty) :=
  if p.fit_data.isEmpty then p.transform_data else p.fit_data

/-- Advance the running produced-schema by one stage (the
`data = pipe._transform_schema(data)` line of the Pipeline properties). -/
def step_schema (data : Schema) (np : String × Pipe) : Schema :=
  transform_schema_ops np.2 data

/-- The loop of `Pipeline.fit_requires` (pipeline.py lines 43-63),
parameterised over the accumulated requirement schema and the running
produced schema. -/
def fit_requires_go : List (String × Pipe) → Schema → Schema → Schema
  | [], fs, _ => fs
  | np :: rest, fs, data =>
    let req := required_of np.2
    let newKeys := req.filter (fun kv => !(dmem kv.1 data) && !(dmem kv.1 fs))
    fit_requires_go rest (dupdate fs newKeys) (step_schema data np)

/-- `Pipeline.fit_requires`. -/
def fit_requires (pipes : List (String × Pipe)) : Schema :=
  fit_requires_go pipes [] []

/-- The loop of `Pipeline.transform_requires` (pipeline.py lines 65-80). -/
def transform_requires_go : List (String × Pipe) → Schema → Schema → Schema
  | [], fs, _ => fs
  | np :: rest, fs, data =>
    let newKeys := np.2.transform_data.filter
      (fun kv => !(dmem kv.1 data) && !(dmem kv.1 fs))
    transform_requires_go rest (dupdate fs newKeys) (step_schema data np)

/-- `Pipeline.transform_requires`. -/
def transform_requires (pipes : List (String × Pipe)) : Schema :=
  transform_requires_go pipes [] []

/-- An entry of the accumulated `Pipeline.transform_modifies` dictionary: a
single recorded value, or the ordered list a repeatedly-modified key
accumulates (`isinstance(..., list)` distinguishes the two in the source). -/
inductive ModEntry : Type where
  | one (v : ModValue)
  | many (vs : List ModValue)
  deriving DecidableEq

/-- One step of the inner loop of `Pipeline.transform_modifies` (pipeline.py
lines 82-100) handling one `(key_1, op)` item of the current stage `mods`:
when the key is already recorded, append `op` (as a two-element list, or onto
the existing list) unless it equals the most recent recorded value; when the
key is new, the source executes `transform_modifies.update(pipe.transform_modifies)`,
i.e. it merges the WHOLE stage dictionary, overwriting every shared key. -/
def transform_modifies_step (mods : List (String × ModValue))
    (acc : List (String × ModEntry)) (kv : String × ModValue) :
    List (String × ModEntry) :=
  match dlookup kv.1 acc with
  | some (.one v) =>
    if modValueNe kv.2 v then dinsert kv.1 (.many [v, kv.2]) acc else acc
  | some (.many vs) =>
    match vs.getLast? with
    | some l => if modValueNe kv.2 l then dinsert kv.1 (.many (vs ++ [kv.2])) acc else acc
    | none => acc  -- unreachable: accumulated lists are never empty
  | none => dupdate acc (mods.map (fun m => (m.1, ModEntry.one m.2)))

/-- `Pipeline.transform_modifies` (pipeline.py lines 82-100). -/
def pipeline_transform_modifies (pipes : List (String × Pipe)) :
    List (String × ModEntry) :=
  pipes.foldl
    (fun acc np => np.2.transform_modifies.foldl
      (transform_modifies_step np.2.transform_modifies) acc)
    []

/-- Recognises the single aggregated missing-arguments violation of
`check_fit` (a `WrongSchema` whose location trail is exactly `[in fit]`);
every other violation surfacing from `check_fit` has a different constructor
or a trail ending in an argument/parameter location. -/
def isTopMissingFit : Exn → Bool
  | .WrongSchema _ _ ls => ls == [.inFit]
  | _ => false

/-- Recognises the single aggregated missing-arguments violation of
`check_transform`. -/
def isTopMissingTransform : Exn → Bool
  | .WrongSchema _ _ ls => ls == [.inTransform]
  | _ => false

/-- The side condition under which the instance/type duality round-trip
holds: unconditional for the `Array` and `_DataFrame` variants; for the
container variants (`List`/`Tuple`) the declared item type must be a
`_LiteralType` and the instance must be nonempty with every element of
exactly the declared item class (so that `_Container.infer` reconstructs the
declared item type rather than `object`); it fails for `_LiteralType` (which
has no `infer`) and for mismatched combinations (excluded anyway by
validity). -/
def round_trip_cond : Ty → Value → Bool
  | .tlist (.lit b), .vlist vs => !vs.isEmpty && vs.all (fun u => classTag u == b)
  | .ttuple (.lit b), .vtuple vs => !vs.isEmpty && vs.all (fun u => classTag u == b)
  | .array _ _, _ => true
  | .frame _, _ => true
  | _, _ => false

/-! ## Dictionary lemmas -/

theorem dlookup_nil {α : Type} (k : String) :
    dlookup k ([] : List (String × α)) = none := rfl

theorem dlookup_cons {α : Type} (k : String) (kv : String × α)
    (d : List (String × α)) :
    dlookup k (kv :: d) = if kv.1 == k then some kv.2 else dlookup k d := rfl

theorem dmem_nil {α : Type} (k : String) :
    dmem k ([] : List (String × α)) = false := rfl

theorem dmem_cons {α : Type} (k : String) (kv : String × α)
    (d : List (String × α)) :
    dmem k (kv :: d) = (kv.1 == k || dmem k d) := by
  simp only [dmem, dlookup_cons]
  by_cases h : kv.1 == k <;> simp [h]

theorem dmem_iff_mem_dkeys {α : Type} (k : String) (d : List (String × α)) :
    dmem k d = true ↔ k ∈ dkeys d := by
  induction d with
  | nil => simp [dmem_nil, dkeys]
  | cons kv rest ih =>
    simp only [dmem_cons, dkeys, List.map_cons, List.mem_cons, Bool.or_eq_true,
      beq_iff_eq]
    rw [eq_comm (a := kv.1)]
    exact or_congr Iff.rfl (by simpa [dkeys] using ih)

theorem dlookup_append {α : Type} (k : String) (d e : List (String × α)) :
    dlookup k (d ++ e) = if dmem k d then dlookup k d else dlookup k e := by
  induction d with
  | nil => simp [dmem_nil, dlookup_nil]
  | cons kv rest ih =>
    by_cases h : kv.1 == k
    · simp [dlookup_cons, dmem_cons, h]
    · simp only [List.cons_append, dlookup_cons, dmem_cons, h, if_false,
        Bool.false_or]
      exact ih

theorem dmem_append {α : Type} (k : String) (d e : List (String × α)) :
    dmem k (d ++ e) = (dmem k d || dmem k e) := by
  simp only [dmem, dlookup_append]
  by_cases h : (dlookup k d).isSome
  · simp only [dmem, h, if_true]; simp [h]
  · simp only [Bool.not_eq_true] at h
    simp [dmem, h]

theorem dkeys_dinsert_of_mem {α : Type} (k : String) (v : α)
    (d : List (String × α)) (h : dmem k d = true) :
    dkeys (dinsert k v d) = dkeys d := by
  simp only [dinsert, h, if_true, dkeys, List.map_map]
  apply List.map_congr_left
  intro kv _
  by_cases hk : kv.1 == k
  · simp only [Function.comp_apply, hk, if_true]
    exact (beq_iff_eq.mp hk).symm
  · rw [Function.comp_apply, if_neg (by simpa using hk)]

theorem dmem_dinsert {α : Type} (k k2 : String) (v : α) (d : List (String × α)) :
    dmem k (dinsert k2 v d) = (k2 == k || dmem k d) := by
  by_cases h : dmem k2 d = true
  · have h1 : dmem k (dinsert k2 v d) = dmem k d := by
      rw [Bool.eq_iff_iff, dmem_iff_mem_dkeys, dmem_iff_mem_dkeys,
        dkeys_dinsert_of_mem k2 v d h]
    rw [h1]
    by_cases hk : k2 == k
    · have : dmem k d = true := by rwa [← beq_iff_eq.mp hk]
      simp [hk, this]
    · simp [hk]
  · simp only [Bool.not_eq_true] at h
    simp only [dinsert, h, Bool.false_eq_true, if_false, dmem_append,
      dmem_cons, dmem_nil, Bool.or_false]
    exact Bool.or_comm _ _

theorem dmem_dupdate {α : Type} (k : String) (d e : List (String × α)) :
    dmem k (dupdate d e) = (dmem k d || dmem k e) := by
  induction e generalizing d with
  | nil => simp [dupdate, dmem_nil]
  | cons kv rest ih =>
    simp only [dupdate, List.foldl_cons] at *
    rw [ih, dmem_dinsert, dmem_cons]
    cases kv.1 == k <;> cases dmem k d <;> simp

theorem dmem_filter_key {α : Type} (k : String) (f : String → Bool)
    (d : List (String × α)) :
    dmem k (d.filter (fun kv => f kv.1)) = (dmem k d && f k) := by
  induction d with
  | nil => simp [dmem_nil]
  | cons kv rest ih =>
    by_cases h : kv.1 == k
    · have hk : kv.1 = k := beq_iff_eq.mp h
      by_cases hf : f kv.1 = true
      · have hfk : f k = true := hk ▸ hf
        simp [List.filter_cons, hf, hfk, dmem_cons, h, hk]
      · simp only [Bool.not_eq_true] at hf
        simp only [List.filter_cons, hf, Bool.false_eq_true, if_false,
          dmem_cons, h, Bool.true_or, ih, hk ▸ hf, Bool.and_false]
    · by_cases hf : f kv.1 = true
      · simp only [List.filter_cons, hf, if_true, dmem_cons, h,
          Bool.false_or]
        exact ih
      · simp only [Bool.not_eq_true] at hf
        simp only [List.filter_cons, hf, Bool.false_eq_true, if_false,
          dmem_cons, h, Bool.false_or]
        exact ih

theorem dlookup_dinsert_self {α : Type} (k : String) (v : α)
    (d : List (String × α)) : dlookup k (dinsert k v d) = some v := by
  by_cases h : dmem k d = true
  · simp only [dinsert, h, if_true]
    induction d with
    | nil => simp [dmem_nil] at h
    | cons kv rest ih =>
      by_cases hk : kv.1 == k
      · have hk' : kv.1 = k := beq_iff_eq.mp hk
        simp [dlookup_cons, hk']
      · simp only [List.map_cons, hk, Bool.false_eq_true, if_false,
          dlookup_cons]
        simp only [dmem_cons, hk, Bool.false_or] at h
        exact ih h
  · simp only [Bool.not_eq_true] at h
    simp only [dinsert, h, Bool.false_eq_true, if_false, dlookup_append, h,
      if_false, dlookup_cons, dlookup_nil]
    simp

/-! ## Strict mode lemmas: a strict check that does not raise found nothing -/

theorem check_schema_cols_strict_ok (decl cand : List (String × String)) :
    ∀ l, check_schema_cols decl cand true = .ok l → l = [] := by
  induction decl with
  | nil => intro l h; simpa [check_schema_cols] using h
  | cons ct rest ih =>
    obtain ⟨c, t⟩ := ct
    intro l h
    simp only [check_schema_cols] at h
    split at h
    · simp at h
    · split at h
      · simp at h
      · exact ih l h

theorem check_items_strict_ok_aux (t : Ty)
    (iht : ∀ v l, check_as_instance t v true = .ok l → l = []) :
    ∀ vs l, check_items t vs true = .ok l → l = [] := by
  intro vs
  induction vs with
  | nil => intro l h; simpa [check_items] using h
  | cons v rest ih =>
    intro l h
    rw [check_items] at h
    cases hv : check_as_instance t v true with
    | error e => rw [hv] at h; simp at h
    | ok es =>
      rw [hv] at h
      cases hr : check_items t rest true with
      | error e2 => rw [hr] at h; simp at h
      | ok es2 =>
        rw [hr] at h
        simp only [Except.ok.injEq] at h
        rw [← h, iht v es hv, ih es2 hr]
        rfl

theorem check_as_instance_strict_ok : ∀ (t : Ty) (v : Value) (l : List Exn),
    check_as_instance t v true = .ok l → l = [] := by
  intro t
  induction t with
  | lit b =>
    intro v l h
    rw [check_as_instance] at h
    split at h
    · simpa using h
    · simp at h
  | tlist it iht =>
    intro v l h
    cases v with
    | vlist vs =>
      simp only [check_as_instance] at h
      exact check_items_strict_ok_aux it iht vs l h
    | prim tag => simp [check_as_instance] at h
    | vtuple vs => simp [check_as_instance] at h
    | varray a b => simp [check_as_instance] at h
    | vframe c => simp [check_as_instance] at h
  | ttuple it iht =>
    intro v l h
    cases v with
    | vtuple vs =>
      simp only [check_as_instance] at h
      exact check_items_strict_ok_aux it iht vs l h
    | prim tag => simp [check_as_instance] at h
    | vlist vs => simp [check_as_instance] at h
    | varray a b => simp [check_as_instance] at h
    | vframe c => simp [check_as_instance] at h
  | array dt shp =>
    intro v l h
    cases v with
    | varray dt2 s =>
      simp only [check_as_instance] at h
      split at h
      · split at h
        · simpa using h
        · simp at h
      · simp at h
    | prim tag => simp [check_as_instance] at h
    | vlist vs => simp [check_as_instance] at h
    | vtuple vs => simp [check_as_instance] at h
    | vframe c => simp [check_as_instance] at h
  | frame d =>
    intro v l h
    cases v with
    | vframe cols =>
      simp only [check_as_instance] at h
      exact check_schema_cols_strict_ok d cols l h
    | prim tag => simp [check_as_instance] at h
    | vlist vs => simp [check_as_instance] at h
    | vtuple vs => simp [check_as_instance] at h
    | varray a b => simp [check_as_instance] at h

theorem check_as_type_strict_ok (t u : Ty) (l : List Exn)
    (h : check_as_type t u true = .ok l) : l = [] := by
  cases t with
  | lit b => cases u <;> simp_all [check_as_type, tyClass]
  | tlist it =>
    cases u with
    | tlist it2 =>
      simp only [check_as_type, tyClass, bne_self_eq_false, Bool.false_eq_true,
        if_false] at h
      split at h
      · simp at h
      · simpa using h
    | lit b => simp [check_as_type, tyClass] at h
    | ttuple it2 => simp [check_as_type, tyClass] at h
    | array a b => simp [check_as_type, tyClass] at h
    | frame d => simp [check_as_type, tyClass] at h
  | ttuple it =>
    cases u with
    | ttuple it2 =>
      simp only [check_as_type, tyClass, bne_self_eq_false, Bool.false_eq_true,
        if_false] at h
      split at h
      · simp at h
      · simpa using h
    | lit b => simp [check_as_type, tyClass] at h
    | tlist it2 => simp [check_as_type, tyClass] at h
    | array a b => simp [check_as_type, tyClass] at h
    | frame d => simp [check_as_type, tyClass] at h
  | array dt shp =>
    cases u with
    | array dt2 shp2 =>
      simp only [check_as_type, tyClass, bne_self_eq_false, Bool.false_eq_true,
        if_false] at h
      split at h
      · simp at h
      · split at h
        · split at h
          · simpa using h
          · simp at h
        · split at h
          · simpa using h
          · simp at h
    | lit b => simp [check_as_type, tyClass] at h
    | tlist it2 => simp [check_as_type, tyClass] at h
    | ttuple it2 => simp [check_as_type, tyClass] at h
    | frame d => simp [check_as_type, tyClass] at h
  | frame d =>
    cases u with
    | frame d2 =>
      simp only [check_as_type, tyClass, bne_self_eq_false, Bool.false_eq_true,
        if_false] at h
      exact check_schema_cols_strict_ok d d2 l h
    | lit b => simp [check_as_type, tyClass] at h
    | tlist it2 => simp [check_as_type, tyClass] at h
    | ttuple it2 => simp [check_as_type, tyClass] at h
    | array a b => simp [check_as_type, tyClass] at h

theorem check_schema_strict_ok (t : Ty) (c : Candidate) (l : List Exn)
    (h : check_schema t c true = .ok l) : l = [] := by
  cases c with
  | ty u => exact check_as_type_strict_ok t u l h
  | val v => exact check_as_instance_strict_ok t v l h

theorem check_transform_loop_strict_ok (decl : List (String × Ty))
    (data : CandMap) :
    ∀ l, check_transform_loop decl data true = .ok l → l = [] := by
  induction decl with
  | nil => intro l h; simpa [check_transform_loop] using h
  | cons kt rest ih =>
    obtain ⟨k, t⟩ := kt
    intro l h
    rw [check_transform_loop] at h
    split at h
    · exact ih l h
    · rename_i c hc
      cases hv : check_schema t c true with
      | error e => rw [hv] at h; simp at h
      | ok es =>
        rw [hv] at h
        cases hr : check_transform_loop rest data true with
        | error e2 => rw [hr] at h; simp at h
        | ok more =>
          rw [hr] at h
          simp only [Except.ok.injEq] at h
          rw [← h, check_schema_strict_ok t c es hv, ih more hr]
          rfl

theorem check_transform_strict_ok (p : Pipe) (data : CandMap) (l : List Exn)
    (h : check_transform p data true = .ok l) : l = [] := by
  rw [check_transform] at h
  split at h
  · simp at h
  · rename_i hmiss
    simp only [Bool.and_true, Bool.not_eq_true] at hmiss
    cases hl : check_transform_loop p.transform_data data true with
    | error e => rw [hl] at h; simp at h
    | ok exc1 =>
      rw [hl] at h
      simp only [Except.ok.injEq] at h
      rw [← h, hmiss, check_transform_loop_strict_ok _ _ exc1 hl]
      rfl

/-! ## Shape lemmas -/

theorem zip_map_dim_ok : ∀ (ds : List (Option Nat)) (s : List Nat),
    ((ds.zip (s.map some)).all fun p => dim_ok p.1 p.2) = true ↔
      ∀ pr ∈ ds.zip s, ∀ n, pr.1 = some n → pr.2 = n := by
  intro ds
  induction ds with
  | nil => intro s; simp
  | cons d rest ih =>
    intro s
    cases s with
    | nil => simp
    | cons m ms =>
      simp only [List.map_cons, List.zip_cons_cons, List.all_cons,
        Bool.and_eq_true, List.mem_cons, ih ms]
      constructor
      · rintro ⟨h1, h2⟩ pr hpr
        rcases hpr with rfl | hpr
        · intro n hn
          cases d with
          | none => simp at hn
          | some dn =>
            simp only [dim_ok, Option.some.injEq] at h1 hn
            rw [← hn]
            exact (beq_iff_eq.mp h1)
        · exact h2 pr hpr
      · intro hall
        constructor
        · cases d with
          | none => rfl
          | some dn =>
            have hm : m = dn := hall (some dn, m) (Or.inl rfl) dn rfl
            simp [dim_ok, hm]
        · intro pr hpr
          exact hall pr (Or.inr hpr)

/-- Claim C4: Array shape compatibility.  A declared shape of `None` is
compatible with every candidate shape; otherwise compatibility holds exactly
when the candidate shape has equal rank and every non-`None` declared
dimension equals the corresponding candidate dimension; a rank mismatch is
always incompatible, even when every declared dimension is a wildcard. -/
theorem claim_C4 :
    (∀ s : List Nat, is_valid_shape none (s.map some) = true) ∧
    (∀ (ds : List (Option Nat)) (s : List Nat),
      is_valid_shape (some ds) (s.map some) = true ↔
        ds.length = s.length ∧ ∀ pr ∈ ds.zip s, ∀ n, pr.1 = some n → pr.2 = n) ∧
    (∀ (ds : List (Option Nat)) (s : List Nat), ds.length ≠ s.length →
      is_valid_shape (some ds) (s.map some) = false) := by
  refine ⟨fun s => rfl, fun ds s => ?_, fun ds s hne => ?_⟩
  · simp only [is_valid_shape, Bool.and_eq_true, beq_iff_eq, List.length_map]
    exact and_congr Iff.rfl (zip_map_dim_ok ds s)
  · simp [is_valid_shape, List.length_map, hne]

/-- Witness for C4: `Array(float64, (None, None))` accepts shape `(2, 1)`
but rejects shape `(2,)` (the example given by the spec). -/
theorem claim_C4_witness :
    is_valid_shape (some [none, none]) ([2, 1].map some) = true ∧
    is_valid_shape (some [none, none]) ([2].map some) = false :=
  ⟨(claim_C4.2.1 [none, none] [2, 1]).mpr (by decide),
   claim_C4.2.2 [none, none] [2] (by decide)⟩

/-- Claim C9: reading a state key that `fit` has not populated raises a
`NotFitted` error identifying the pipe by class name and the missing key;
writing state is unrestricted (a total operation), and a written key is
subsequently readable. -/
theorem claim_C9 (p : Pipe) (k : String) (h : dlookup k p.state = none) :
    Pipe.getitem p k = .error (.NotFitted p.className k) ∧
    ∀ (q : Pipe) (k2 : String) (v : Value),
      Pipe.getitem (Pipe.setitem q k2 v) k2 = .ok v := by
  constructor
  · simp [Pipe.getitem, h]
  · intro q k2 v
    simp [Pipe.getitem, Pipe.setitem, dlookup_dinsert_self]

/-- Witness for C9 at a freshly-constructed pipe (empty state). -/
theorem claim_C9_witness :
    Pipe.getitem { className := "MyPipe" } "w" = .error (.NotFitted "MyPipe" "w") ∧
    Pipe.getitem (Pipe.setitem { className := "MyPipe" } "w" (.prim "float")) "w"
      = .ok (.prim "float") :=
  ⟨(claim_C9 { className := "MyPipe" } "w" rfl).1,
   (claim_C9 { className := "MyPipe" } "w" rfl).2 _ "w" (.prim "float")⟩

/-- Claim C8 (code bug): `Pipeline.transform_modifies` evaluated at two
stages where stage 0 declares `x ↦ Set(float)` and stage 1 declares
`x ↦ Set(str)` and `y ↦ Set(int)` (in that order).  Processing `x` of stage 1
correctly accumulates `x ↦ [Set(float), Set(str)]`, but processing the new
key `y` executes `transform_modifies.update(pipe.transform_modifies)`, which
overwrites the accumulated list for `x` with the plain `Set(str)` of stage 1,
contradicting the docstring of the property itself (pipeline.py line 87: when a key
is modified more than once, changes are appended as a list). -/
theorem claim_C8 :
    pipeline_transform_modifies
      [("0", { transform_modifies := [("x", .op (.set "float") 1)] }),
       ("1", { transform_modifies :=
          [("x", .op (.set "str") 2), ("y", .op (.set "int") 3)] })]
    = [("x", .one (.op (.set "str") 2)), ("y", .one (.op (.set "int") 3))] := by
  decide

/-- Claim C3 (code bug): in strict mode (`raise_=True`) a type violation on a
present required data field of `check_fit` is NOT raised: pipe.py line 156
calls `check_schema(data[key])` without forwarding `raise_`, so the violation
is collected and `check_fit` returns it in a list, contradicting the
docstring of `raise_` (raise the first found exception).  Here a pipe
requiring `x : float` checked against `x = <str instance>` in strict mode
returns the violation instead of raising it. -/
theorem claim_C3 :
    check_fit { fit_data := [("x", Ty.lit "float")] }
      [("x", .val (.prim "str"))] [] true
    = .ok [.WrongType (.s "float") (.s "str") [.argFit "x"]] := by
  decide

/-- Counterexample to claim C1 as stated: `[]` is a valid instance of
`List(float)` (`check_schema` returns `[]`), but the Type inferred from `[]`
is `List(object)`, and checking that inferred Type against `List(float)` in
type mode yields a `WrongType` violation, not `[]`. -/
theorem claim_C1_counterexample :
    check_schema (.tlist (.lit "float")) (.val (.vlist [])) false = .ok [] ∧
    infer_value (.vlist []) = some (.tlist (.lit "object")) ∧
    check_schema (.tlist (.lit "float")) (.ty (.tlist (.lit "object"))) false
      ≠ .ok [] := by
  decide

/-- Claim C7: `transform_schema` is a pure function of the input schema.  On
any input schema satisfying the transform precondition it returns exactly the
fold of the declared output Operations/replacements in declaration order, the
strict `check_transform` it runs first reports nothing (fail-fast mode either
raises or finds nothing), and the result is independent of the mutable
state of the pipe -- hence two calls on equal input schemas yield equal outputs. -/
theorem claim_C7 (p : Pipe) (s : Schema) (out : Schema)
    (h : transform_schema p s = .ok out) :
    out = transform_schema_ops p s ∧
    check_transform p (schema_as_data s) true = .ok [] ∧
    ∀ st : List (String × Value),
      transform_schema { p with state := st } s = .ok out := by
  rw [transform_schema] at h
  cases hct : check_transform p (schema_as_data s) true with
  | error e => rw [hct] at h; simp at h
  | ok l =>
    rw [hct] at h
    simp only [Except.ok.injEq] at h
    have hl0 : l = [] := check_transform_strict_ok p _ l hct
    subst hl0
    refine ⟨h.symm, rfl, fun st => ?_⟩
    have heq : transform_schema { p with state := st } s = transform_schema p s := rfl
    rw [heq, transform_schema, hct, h]

/-- Witness for C7: a pipe declaring the output operation `y ↦ Set(int)`,
applied to the empty schema. -/
theorem claim_C7_witness :
    transform_schema { transform_modifies := [("y", ModValue.op (.set "int") 5)] } []
      = .ok [("y", Ty.lit "int")] ∧
    ([("y", Ty.lit "int")] : Schema)
      = transform_schema_ops
          { transform_modifies := [("y", ModValue.op (.set "int") 5)] } [] :=
  have h : transform_schema
      { transform_modifies := [("y", ModValue.op (.set "int") 5)] } ([] : Schema)
      = .ok [("y", Ty.lit "int")] := by decide
  ⟨h, (claim_C7 _ _ _ h).1⟩

/-! ## Filter lemmas for the aggregated missing-arguments violation -/

theorem append_singleton_eq_singleton {α : Type} {xs : List α} {x y : α}
    (h : xs ++ [x] = [y]) : xs = [] ∧ x = y := by
  cases xs with
  | nil => simpa using h
  | cons a as =>
    have hl := congrArg List.length h
    simp at hl

theorem isTopMissingFit_withLoc (e : Exn) (l : Loc) (hl : l ≠ .inFit) :
    isTopMissingFit (e.withLoc l) = false := by
  cases e <;> (simp only [Exn.withLoc, isTopMissingFit]; try rfl)
  all_goals
    rw [beq_eq_false_iff_ne]
    intro hc
    exact hl (append_singleton_eq_singleton hc).2

theorem isTopMissingTransform_withLoc (e : Exn) (l : Loc)
    (hl : l ≠ .inTransform) :
    isTopMissingTransform (e.withLoc l) = false := by
  cases e <;> (simp only [Exn.withLoc, isTopMissingTransform]; try rfl)
  all_goals
    rw [beq_eq_false_iff_ne]
    intro hc
    exact hl (append_singleton_eq_singleton hc).2

theorem filter_withLoc_map_fit (es : List Exn) (l : Loc) (hl : l ≠ .inFit) :
    (es.map (fun e => e.withLoc l)).filter isTopMissingFit = [] := by
  induction es with
  | nil => rfl
  | cons e rest ih =>
    simp only [List.map_cons, List.filter_cons, isTopMissingFit_withLoc e l hl,
      Bool.false_eq_true, if_false]
    exact ih

theorem filter_withLoc_map_transform (es : List Exn) (l : Loc)
    (hl : l ≠ .inTransform) :
    (es.map (fun e => e.withLoc l)).filter isTopMissingTransform = [] := by
  induction es with
  | nil => rfl
  | cons e rest ih =>
    simp only [List.map_cons, List.filter_cons,
      isTopMissingTransform_withLoc e l hl, Bool.false_eq_true, if_false]
    exact ih

theorem check_data_loop_filter (decl : List (String × Ty)) (data : CandMap) :
    ∀ l, check_data_loop decl data = .ok l → l.filter isTopMissingFit = [] := by
  induction decl with
  | nil =>
    intro l h
    rw [check_data_loop] at h
    simp only [Except.ok.injEq] at h
    rw [← h]
    rfl
  | cons kt rest ih =>
    obtain ⟨k, t⟩ := kt
    intro l h
    rw [check_data_loop] at h
    split at h
    · exact ih l h
    · cases hv : check_schema t _ false with
      | error e => rw [hv] at h; simp at h
      | ok es =>
        rw [hv] at h
        cases hr : check_data_loop rest data with
        | error e2 => rw [hr] at h; simp at h
        | ok more =>
          rw [hr] at h
          simp only [Except.ok.injEq] at h
          rw [← h, List.filter_append,
            filter_withLoc_map_fit es (.argFit k) (by intro hc; cases hc),
            ih more hr]
          rfl

theorem check_param_loop_filter (decl : List (String × Ty)) (par : CandMap)
    (r : Bool) :
    ∀ l, check_param_loop decl par r = .ok l →
      l.filter isTopMissingFit = [] := by
  induction decl with
  | nil =>
    intro l h
    rw [check_param_loop] at h
    simp only [Except.ok.injEq] at h
    rw [← h]
    rfl
  | cons kt rest ih =>
    obtain ⟨k, t⟩ := kt
    intro l h
    rw [check_param_loop] at h
    split at h
    · exact ih l h
    · cases hv : check_schema t _ r with
      | error e => rw [hv] at h; simp at h
      | ok es =>
        rw [hv] at h
        cases hr : check_param_loop rest par r with
        | error e2 => rw [hr] at h; simp at h
        | ok more =>
          rw [hr] at h
          simp only [Except.ok.injEq] at h
          rw [← h, List.filter_append,
            filter_withLoc_map_fit es (.paramFit k) (by intro hc; cases hc),
            ih more hr]
          rfl

theorem check_transform_loop_filter (decl : List (String × Ty))
    (data : CandMap) (r : Bool) :
    ∀ l, check_transform_loop decl data r = .ok l →
      l.filter isTopMissingTransform = [] := by
  induction decl with
  | nil =>
    intro l h
    rw [check_transform_loop] at h
    simp only [Except.ok.injEq] at h
    rw [← h]
    rfl
  | cons kt rest ih =>
    obtain ⟨k, t⟩ := kt
    intro l h
    rw [check_transform_loop] at h
    split at h
    · exact ih l h
    · cases hv : check_schema t _ r with
      | error e => rw [hv] at h; simp at h
      | ok es =>
        rw [hv] at h
        cases hr : check_transform_loop rest data r with
        | error e2 => rw [hr] at h; simp at h
        | ok more =>
          rw [hr] at h
          simp only [Except.ok.injEq] at h
          rw [← h, List.filter_append,
            filter_withLoc_map_transform es (.argTransform k) (by intro hc; cases hc),
            ih more hr]
          rfl

/-- Claim C10: when one or more required data keys are absent, `check_fit`
(over the required-fit keys) and `check_transform` (over the
required-transform keys) each record exactly one aggregated missing-arguments
violation for the entire check, carrying the full required-key set and the
full passed-key set, rather than one violation per missing key. -/
theorem claim_C10 (p : Pipe) (data par : CandMap) (l1 l2 : List Exn)
    (h1 : check_fit p data par false = .ok l1)
    (h2 : check_transform p data false = .ok l2)
    (hm1 : ∃ k, dmem k p.fit_data = true ∧ dmem k data = false)
    (hm2 : ∃ k, dmem k p.transform_data = true ∧ dmem k data = false) :
    l1.filter isTopMissingFit
      = [.WrongSchema (.keys (dkeys p.fit_data)) (.keys (dkeys data)) [.inFit]] ∧
    l2.filter isTopMissingTransform
      = [.WrongSchema (.keys (dkeys p.transform_data)) (.keys (dkeys data))
          [.inTransform]] := by
  obtain ⟨k1, hk1, hk1d⟩ := hm1
  obtain ⟨k2, hk2, hk2d⟩ := hm2
  have hmiss1 : ((dkeys p.fit_data).any fun k => !(dmem k data)) = true := by
    rw [List.any_eq_true]
    exact ⟨k1, (dmem_iff_mem_dkeys k1 p.fit_data).mp hk1, by simp [hk1d]⟩
  have hmiss2 : ((dkeys p.transform_data).any fun k => !(dmem k data)) = true := by
    rw [List.any_eq_true]
    exact ⟨k2, (dmem_iff_mem_dkeys k2 p.transform_data).mp hk2, by simp [hk2d]⟩
  constructor
  · simp only [check_fit, hmiss1, Bool.and_false, Bool.false_eq_true, if_false,
      if_true] at h1
    cases hd : check_data_loop p.fit_data data with
    | error e => rw [hd] at h1; simp at h1
    | ok exc1 =>
      rw [hd] at h1
      cases hp : check_param_loop p.fit_parameters par false with
      | error e => rw [hp] at h1; simp at h1
      | ok exc3 =>
        rw [hp] at h1
        simp only [Except.ok.injEq] at h1
        rw [← h1]
        simp only [List.filter_append, check_data_loop_filter _ _ _ hd,
          check_param_loop_filter _ _ _ _ hp, List.append_nil]
        by_cases hpm : key_set_eq (dkeys par) (dkeys p.fit_parameters) = true
        · simp [hpm, isTopMissingFit]
        · simp only [Bool.not_eq_true] at hpm
          simp [hpm, isTopMissingFit]
  · simp only [check_transform, hmiss2, Bool.and_false, Bool.false_eq_true,
      if_false, if_true] at h2
    cases hd : check_transform_loop p.transform_data data false with
    | error e => rw [hd] at h2; simp at h2
    | ok exc1 =>
      rw [hd] at h2
      simp only [Except.ok.injEq] at h2
      rw [← h2]
      simp only [List.filter_append, check_transform_loop_filter _ _ _ _ hd,
        List.append_nil]
      simp [isTopMissingTransform]

/-- Witness for C10: a pipe requiring `x` for fit and `z` for transform,
checked against empty data. -/
theorem claim_C10_witness :
    check_fit
      { fit_data := [("x", Ty.lit "float")], transform_data := [("z", Ty.lit "int")] }
      [] [] false
      = .ok [.WrongSchema (.keys ["x"]) (.keys []) [.inFit]] ∧
    [Exn.WrongSchema (.keys ["x"]) (.keys []) [.inFit]].filter isTopMissingFit
      = [.WrongSchema (.keys ["x"]) (.keys []) [.inFit]] :=
  ⟨by decide,
   (claim_C10
      { fit_data := [("x", Ty.lit "float")], transform_data := [("z", Ty.lit "int")] }
      [] []
      [.WrongSchema (.keys ["x"]) (.keys []) [.inFit]]
      [.WrongSchema (.keys ["z"]) (.keys []) [.inTransform]]
      (by decide) (by decide)
      ⟨"x", by decide, by decide⟩ ⟨"z", by decide, by decide⟩).1⟩


/-! ## Open-world lemmas for check_fit data -/

theorem check_data_loop_extend (decl : List (String × Ty)) (data extra : CandMap)
    (h1 : ∀ kt ∈ decl, dmem kt.1 data = true) :
    check_data_loop decl (data ++ extra) = check_data_loop decl data := by
  induction decl with
  | nil => rfl
  | cons kt rest ih =>
    obtain ⟨k, t⟩ := kt
    have hk : dmem k data = true := h1 (k, t) (List.mem_cons_self _ _)
    have hlk : dlookup k (data ++ extra) = dlookup k data := by
      rw [dlookup_append, if_pos hk]
    rw [check_data_loop, check_data_loop, hlk,
      ih (fun kt hkt => h1 kt (List.mem_cons_of_mem _ hkt))]

/-- Claim C6: `check_fit` is open-world on data keys (adding undeclared keys
to data that already satisfies the required-key set leaves the result
unchanged, in both modes) but closed-world by exact name match on parameters:
for a pipe requiring parameter set containing exactly `alpha`, `check_fit`
reports a `WrongParameter` violation when given no parameters, `alpha` and
`beta`, or only `beta`, and succeeds only for exactly `alpha` with a
compatible type; moreover, when every required data key is present no
missing-arguments violation is recorded. -/
theorem claim_C6 :
    (∀ (p : Pipe) (data extra par : CandMap) (r : Bool),
      (∀ k, dmem k p.fit_data = true → dmem k data = true) →
      (∀ k, dmem k extra = true → dmem k p.fit_data = false) →
      check_fit p (data ++ extra) par r = check_fit p data par r) ∧
    (∀ (p : Pipe) (data par : CandMap) (l : List Exn),
      (∀ k, dmem k p.fit_data = true → dmem k data = true) →
      check_fit p data par false = .ok l →
      l.filter isTopMissingFit = []) ∧
    check_fit { fit_parameters := [("alpha", Ty.lit "float")] } [] [] false
      = .ok [.WrongParameter (.keys ["alpha"]) (.keys []) [.inFit]] ∧
    check_fit { fit_parameters := [("alpha", Ty.lit "float")] } []
      [("alpha", .val (.prim "float")), ("beta", .val (.prim "float"))] false
      = .ok [.WrongParameter (.keys ["alpha"]) (.keys ["alpha", "beta"]) [.inFit]] ∧
    check_fit { fit_parameters := [("alpha", Ty.lit "float")] } []
      [("beta", .val (.prim "float"))] false
      = .ok [.WrongParameter (.keys ["alpha"]) (.keys ["beta"]) [.inFit]] ∧
    check_fit { fit_parameters := [("alpha", Ty.lit "float")] } []
      [("alpha", .val (.prim "float"))] false = .ok [] := by
  refine ⟨?_, ?_, by decide, by decide, by decide, by decide⟩
  · intro p data extra par r hreq hext
    have hmiss : ((dkeys p.fit_data).any fun k => !(dmem k data)) = false := by
      rw [List.any_eq_false]
      intro k hk
      simp [hreq k ((dmem_iff_mem_dkeys k p.fit_data).mpr hk)]
    have hmiss2 :
        ((dkeys p.fit_data).any fun k => !(dmem k (data ++ extra))) = false := by
      rw [List.any_eq_false]
      intro k hk
      simp [dmem_append, hreq k ((dmem_iff_mem_dkeys k p.fit_data).mpr hk)]
    have hloop : check_data_loop p.fit_data (data ++ extra)
        = check_data_loop p.fit_data data :=
      check_data_loop_extend _ _ _ (fun kt hkt =>
        hreq kt.1 ((dmem_iff_mem_dkeys kt.1 p.fit_data).mpr
          (List.mem_map_of_mem Prod.fst hkt)))
    simp only [check_fit, hmiss, hmiss2, Bool.false_and, Bool.false_eq_true,
      if_false, hloop]
  · intro p data par l hreq hok
    have hmiss : ((dkeys p.fit_data).any fun k => !(dmem k data)) = false := by
      rw [List.any_eq_false]
      intro k hk
      simp [hreq k ((dmem_iff_mem_dkeys k p.fit_data).mpr hk)]
    simp only [check_fit, hmiss, Bool.false_and, Bool.and_false,
      Bool.false_eq_true, if_false] at hok
    cases hd : check_data_loop p.fit_data data with
    | error e => rw [hd] at hok; simp at hok
    | ok exc1 =>
      rw [hd] at hok
      cases hp : check_param_loop p.fit_parameters par false with
      | error e => rw [hp] at hok; simp at hok
      | ok exc3 =>
        rw [hp] at hok
        simp only [Except.ok.injEq] at hok
        rw [← hok]
        simp only [List.filter_append, check_data_loop_filter _ _ _ hd,
          check_param_loop_filter _ _ _ _ hp, List.append_nil, List.nil_append]
        by_cases hpm : key_set_eq (dkeys par) (dkeys p.fit_parameters) = true
        · simp [hpm]
        · simp only [Bool.not_eq_true] at hpm
          simp [hpm, isTopMissingFit]

/-- Witness for C6: adding the undeclared key `zzz` to satisfying data does
not change the result of `check_fit`. -/
theorem claim_C6_witness :
    check_fit { fit_data := [("x", Ty.lit "float")] }
        ([("x", .val (.prim "float"))] ++ [("zzz", .val (.prim "str"))]) [] false
      = check_fit { fit_data := [("x", Ty.lit "float")] }
        [("x", .val (.prim "float"))] [] false :=
  claim_C6.1 { fit_data := [("x", Ty.lit "float")] }
    [("x", .val (.prim "float"))] [("zzz", .val (.prim "str"))] [] false
    (by
      intro k hk
      simp only [dmem_cons, dmem_nil, Bool.or_false] at hk ⊢
      exact hk)
    (by
      intro k hk
      simp only [dmem_cons, dmem_nil, Bool.or_false, beq_iff_eq] at hk
      subst hk
      decide)

/-! ## Frame checking lemmas -/

theorem check_schema_cols_all_ok (decl cand : List (String × String))
    (h : ∀ ct ∈ decl, dlookup ct.1 cand = some ct.2) :
    check_schema_cols decl cand false = .ok [] := by
  induction decl with
  | nil => rfl
  | cons ct rest ih =>
    obtain ⟨c, t⟩ := ct
    have hc : dlookup c cand = some t := h (c, t) (List.mem_cons_self _ _)
    rw [check_schema_cols, hc]
    simp only [bne_self_eq_false, Bool.false_eq_true, if_false]
    exact ih (fun ct hct => h ct (List.mem_cons_of_mem _ hct))

theorem check_schema_cols_missing_mem (decl cand : List (String × String))
    (c : String) (hmem : dmem c decl = true) (hnone : dlookup c cand = none) :
    ∀ l, check_schema_cols decl cand false = .ok l →
      Exn.WrongSchema (.s c) (.keys (dkeys cand)) [] ∈ l := by
  induction decl with
  | nil => simp [dmem_nil] at hmem
  | cons ct rest ih =>
    obtain ⟨cH, tH⟩ := ct
    intro l h
    rw [check_schema_cols] at h
    split at h
    · -- the head column is missing from the candidate
      simp only [Bool.false_eq_true, if_false] at h
      cases hr : check_schema_cols rest cand false with
      | error e => rw [hr] at h; simp at h
      | ok es =>
        rw [hr] at h
        simp only [Except.ok.injEq] at h
        rw [← h]
        by_cases hcc : cH == c
        · have hc : cH = c := beq_iff_eq.mp hcc
          subst hc
          exact List.mem_cons_self _ _
        · simp only [dmem_cons, hcc, Bool.false_or] at hmem
          exact List.mem_cons_of_mem _ (ih hmem es hr)
    · -- the head column is present, so it is not `c`
      rename_i t2 hc2
      have hcc : (cH == c) = false := by
        rw [beq_eq_false_iff_ne]
        intro hceq
        rw [hceq, hnone] at hc2
        cases hc2
      simp only [dmem_cons, hcc, Bool.false_or] at hmem
      split at h
      · simp only [Bool.false_eq_true, if_false] at h
        cases hr : check_schema_cols rest cand false with
        | error e => rw [hr] at h; simp at h
        | ok es =>
          rw [hr] at h
          simp only [Except.ok.injEq] at h
          rw [← h]
          exact List.mem_cons_of_mem _ (ih hmem es hr)
      · exact ih hmem l h

theorem check_schema_cols_wrongtype_mem (decl cand : List (String × String))
    (c t t2 : String) (hdecl : dlookup c decl = some t)
    (hsome : dlookup c cand = some t2) (hne : t2 ≠ t) :
    ∀ l, check_schema_cols decl cand false = .ok l →
      Exn.WrongType (.s t) (.s t2) [.column c] ∈ l := by
  induction decl with
  | nil => simp [dlookup_nil] at hdecl
  | cons ct rest ih =>
    obtain ⟨cH, tH⟩ := ct
    intro l h
    rw [check_schema_cols] at h
    rw [dlookup_cons] at hdecl
    split at h
    · -- the head column is missing from the candidate, so it is not `c`
      rename_i hc2
      have hcc : (cH == c) = false := by
        rw [beq_eq_false_iff_ne]
        intro hceq
        rw [hceq, hsome] at hc2
        cases hc2
      simp only [hcc, Bool.false_eq_true, if_false] at hdecl
      simp only [Bool.false_eq_true, if_false] at h
      cases hr : check_schema_cols rest cand false with
      | error e => rw [hr] at h; simp at h
      | ok es =>
        rw [hr] at h
        simp only [Except.ok.injEq] at h
        rw [← h]
        exact List.mem_cons_of_mem _ (ih hdecl es hr)
    · rename_i tc hc2
      split at h
      · -- type mismatch recorded for the head column
        rename_i hneH
        simp only [Bool.false_eq_true, if_false] at h
        cases hr : check_schema_cols rest cand false with
        | error e => rw [hr] at h; simp at h
        | ok es =>
          rw [hr] at h
          simp only [Except.ok.injEq] at h
          rw [← h]
          by_cases hcc : cH == c
          · have hc : cH = c := beq_iff_eq.mp hcc
            subst hc
            simp only [beq_self_eq_true, if_true, Option.some.injEq] at hdecl
            rw [hsome] at hc2
            have htc : t2 = tc := by
              injection hc2 with hx
            subst htc
            subst hdecl
            exact List.mem_cons_self _ _
          · simp only [hcc, Bool.false_eq_true, if_false] at hdecl
            exact List.mem_cons_of_mem _ (ih hdecl es hr)
      · -- head column type matches
        rename_i hneH
        by_cases hcc : cH == c
        · -- impossible: it would force t2 = t
          exfalso
          have hc : cH = c := beq_iff_eq.mp hcc
          subst hc
          simp only [beq_self_eq_true, if_true, Option.some.injEq] at hdecl
          rw [hsome] at hc2
          have htc : t2 = tc := by injection hc2 with hx
          rw [Bool.not_eq_true, bne_eq_false_iff_eq] at hneH
          exact hne (by rw [htc, hneH, hdecl])
        · simp only [hcc, Bool.false_eq_true, if_false] at hdecl
          exact ih hdecl l h

/-- Claim C5: open-world table checking.  Checking a live frame or a frame
Type descriptor against a declared Table Type iterates only the declared
columns: when every declared column is present with an equal type the check
returns `[]` regardless of any extra columns; a declared column missing from
the candidate contributes a `WrongSchema` violation; a declared column
present with a different type contributes a `WrongType` violation whose
location trail carries the column name. -/
theorem claim_C5 :
    (∀ (d a : List (String × String)),
      (∀ ct ∈ d, dlookup ct.1 a = some ct.2) →
      check_schema (.frame d) (.val (.vframe a)) false = .ok [] ∧
      check_schema (.frame d) (.ty (.frame a)) false = .ok []) ∧
    (∀ (d a : List (String × String)) (c : String) (l : List Exn),
      dmem c d = true → dlookup c a = none →
      check_schema (.frame d) (.val (.vframe a)) false = .ok l →
      Exn.WrongSchema (.s c) (.keys (dkeys a)) [] ∈ l) ∧
    (∀ (d a : List (String × String)) (c t t2 : String) (l : List Exn),
      dlookup c d = some t → dlookup c a = some t2 → t2 ≠ t →
      check_schema (.frame d) (.val (.vframe a)) false = .ok l →
      Exn.WrongType (.s t) (.s t2) [.column c] ∈ l) := by
  refine ⟨fun d a h => ⟨?_, ?_⟩, fun d a c l hmem hnone hok => ?_,
    fun d a c t t2 l hdecl hsome hne hok => ?_⟩
  · exact check_schema_cols_all_ok d a h
  · show check_as_type (.frame d) (.frame a) false = .ok []
    rw [check_as_type]
    simp only [tyClass, bne_self_eq_false, Bool.false_eq_true, if_false]
    exact check_schema_cols_all_ok d a h
  · exact check_schema_cols_missing_mem d a c hmem hnone l hok
  · exact check_schema_cols_wrongtype_mem d a c t t2 hdecl hsome hne l hok

/-- Witness for C5: the spec example, a Table Type declaring `a : float`
accepts a frame with columns `a : float` and `b : str`. -/
theorem claim_C5_witness :
    check_schema (.frame [("a", "float")])
      (.val (.vframe [("a", "float"), ("b", "str")])) false = .ok [] :=
  ((claim_C5.1 [("a", "float")] [("a", "float"), ("b", "str")]) (by
    intro ct hct
    simp only [List.mem_singleton] at hct
    subst hct
    decide)).1


/-! ## Pipeline requirement lemmas -/

theorem dmem_filter_req (k : String) (data fs : Schema)
    (req : List (String × Ty)) :
    dmem k (req.filter (fun kv => !(dmem kv.1 data) && !(dmem kv.1 fs)))
      = (dmem k req && (!(dmem k data) && !(dmem k fs))) :=
  dmem_filter_key k (fun key => !(dmem key data) && !(dmem key fs)) req

theorem exists_split_cons {α : Type} (a : α) (tl : List α)
    (P : α → List α → Prop) :
    (∃ pre x rest, a :: tl = pre ++ x :: rest ∧ P x pre) ↔
      (P a [] ∨ ∃ pre x rest, tl = pre ++ x :: rest ∧ P x (a :: pre)) := by
  constructor
  · rintro ⟨pre, x, rest, heq, hp⟩
    cases pre with
    | nil =>
      simp only [List.nil_append, List.cons.injEq] at heq
      obtain ⟨h1, h2⟩ := heq
      exact Or.inl (by rw [h1]; exact hp)
    | cons b pre2 =>
      simp only [List.cons_append, List.cons.injEq] at heq
      obtain ⟨h1, h2⟩ := heq
      exact Or.inr ⟨pre2, x, rest, h2, by rw [h1]; exact hp⟩
  · rintro (hp | ⟨pre, x, rest, heq, hp⟩)
    · exact ⟨[], a, tl, rfl, hp⟩
    · exact ⟨a :: pre, x, rest, by rw [List.cons_append, heq], hp⟩

theorem split_cons_fit (k : String) (data : Schema) (hd : String × Pipe)
    (tl : List (String × Pipe)) :
    (∃ pre np rest, hd :: tl = pre ++ np :: rest ∧
      dmem k (required_of np.2) = true ∧
      dmem k (pre.foldl step_schema data) = false) ↔
      ((dmem k (required_of hd.2) = true ∧
        dmem k (([] : List (String × Pipe)).foldl step_schema data) = false) ∨
       ∃ pre np rest, tl = pre ++ np :: rest ∧
         dmem k (required_of np.2) = true ∧
         dmem k ((hd :: pre).foldl step_schema data) = false) :=
  exists_split_cons hd tl (fun np pre =>
    dmem k (required_of np.2) = true ∧
    dmem k (pre.foldl step_schema data) = false)

theorem split_cons_transform (k : String) (data : Schema) (hd : String × Pipe)
    (tl : List (String × Pipe)) :
    (∃ pre np rest, hd :: tl = pre ++ np :: rest ∧
      dmem k np.2.transform_data = true ∧
      dmem k (pre.foldl step_schema data) = false) ↔
      ((dmem k hd.2.transform_data = true ∧
        dmem k (([] : List (String × Pipe)).foldl step_schema data) = false) ∨
       ∃ pre np rest, tl = pre ++ np :: rest ∧
         dmem k np.2.transform_data = true ∧
         dmem k ((hd :: pre).foldl step_schema data) = false) :=
  exists_split_cons hd tl (fun np pre =>
    dmem k np.2.transform_data = true ∧
    dmem k (pre.foldl step_schema data) = false)

theorem fit_requires_go_mem (pl : List (String × Pipe)) :
    ∀ (fs data : Schema) (k : String),
      dmem k (fit_requires_go pl fs data) = true ↔
        (dmem k fs = true ∨ ∃ pre np rest, pl = pre ++ np :: rest ∧
          dmem k (required_of np.2) = true ∧
          dmem k (pre.foldl step_schema data) = false) := by
  induction pl with
  | nil =>
    intro fs data k
    rw [fit_requires_go]
    constructor
    · exact Or.inl
    · rintro (h | ⟨pre, np, rest, heq, -, -⟩)
      · exact h
      · exact absurd heq (by cases pre <;> simp)
  | cons hd tl ih =>
    intro fs data k
    simp only [fit_requires_go]
    rw [ih, split_cons_fit k data hd tl, dmem_dupdate,
      dmem_filter_req k data fs (required_of hd.2)]
    simp only [List.foldl_cons, List.foldl_nil, Bool.or_eq_true,
      Bool.and_eq_true, Bool.not_eq_true']
    constructor
    · rintro ((hA | ⟨hR, hD, hF⟩) | hE)
      · exact Or.inl hA
      · exact Or.inr (Or.inl ⟨hR, hD⟩)
      · exact Or.inr (Or.inr hE)
    · rintro (hA | (⟨hR, hD⟩ | hE))
      · exact Or.inl (Or.inl hA)
      · by_cases hA : dmem k fs = true
        · exact Or.inl (Or.inl hA)
        · simp only [Bool.not_eq_true] at hA
          exact Or.inl (Or.inr ⟨hR, hD, hA⟩)
      · exact Or.inr hE

theorem transform_requires_go_mem (pl : List (String × Pipe)) :
    ∀ (fs data : Schema) (k : String),
      dmem k (transform_requires_go pl fs data) = true ↔
        (dmem k fs = true ∨ ∃ pre np rest, pl = pre ++ np :: rest ∧
          dmem k np.2.transform_data = true ∧
          dmem k (pre.foldl step_schema data) = false) := by
  induction pl with
  | nil =>
    intro fs data k
    rw [transform_requires_go]
    constructor
    · exact Or.inl
    · rintro (h | ⟨pre, np, rest, heq, -, -⟩)
      · exact h
      · exact absurd heq (by cases pre <;> simp)
  | cons hd tl ih =>
    intro fs data k
    simp only [transform_requires_go]
    rw [ih, split_cons_transform k data hd tl, dmem_dupdate,
      dmem_filter_req k data fs hd.2.transform_data]
    simp only [List.foldl_cons, List.foldl_nil, Bool.or_eq_true,
      Bool.and_eq_true, Bool.not_eq_true']
    constructor
    · rintro ((hA | ⟨hR, hD, hF⟩) | hE)
      · exact Or.inl hA
      · exact Or.inr (Or.inl ⟨hR, hD⟩)
      · exact Or.inr (Or.inr hE)
    · rintro (hA | (⟨hR, hD⟩ | hE))
      · exact Or.inl (Or.inl hA)
      · by_cases hA : dmem k fs = true
        · exact Or.inl (Or.inl hA)
        · simp only [Bool.not_eq_true] at hA
          exact Or.inl (Or.inr ⟨hR, hD, hA⟩)
      · exact Or.inr hE

/-- Claim C2: first-occurrence union law.  A key belongs to the
required-fit-schema of a Pipeline exactly when some stage requires it (its required-fit
schema, falling back to its required-transform schema when no fit requirement
is declared -- that is `required_of`) and the key is not supplied by the
declared outputs of the stages before it (the running schema advanced with
`_transform_schema` from the empty schema); `transform_requires` obeys the
same rule over the required-transform schemas of the stages.  In particular a field
produced by an earlier stage is not listed, and a required field no earlier
stage produces propagates to the external contract of the Pipeline. -/
theorem claim_C2 (pipes : List (String × Pipe)) (k : String) :
    (dmem k (fit_requires pipes) = true ↔
      ∃ pre np rest, pipes = pre ++ np :: rest ∧
        dmem k (required_of np.2) = true ∧
        dmem k (pre.foldl step_schema []) = false) ∧
    (dmem k (transform_requires pipes) = true ↔
      ∃ pre np rest, pipes = pre ++ np :: rest ∧
        dmem k np.2.transform_data = true ∧
        dmem k (pre.foldl step_schema []) = false) := by
  constructor
  · rw [fit_requires, fit_requires_go_mem pipes [] [] k]
    simp [dmem_nil]
  · rw [transform_requires, transform_requires_go_mem pipes [] [] k]
    simp [dmem_nil]

/-- Witness for C2: stage 0 produces `x` and requires `a`; stage 1 fit-requires
`x` and `b`.  The required-fit-schema of the Pipeline contains `b` (not produced
earlier); the supplied split exhibits stage 1 as the first requiring stage. -/
theorem claim_C2_witness :
    dmem "b" (fit_requires
      [("0", { transform_data := [("a", Ty.lit "float")],
               transform_modifies := [("x", ModValue.op (.set "float") 1)] }),
       ("1", { fit_data := [("x", Ty.lit "float"), ("b", Ty.lit "int")] })])
      = true :=
  (claim_C2 _ "b").1.mpr
    ⟨[("0", { transform_data := [("a", Ty.lit "float")],
              transform_modifies := [("x", ModValue.op (.set "float") 1)] })],
     ("1", { fit_data := [("x", Ty.lit "float"), ("b", Ty.lit "int")] }), [],
     rfl, by decide, by decide⟩


/-- Claim C1 (amended): `check_schema` dispatches to type-mode comparison
when the candidate is a Type and to instance-mode validation otherwise; and
the instance/type duality round-trip holds for every valid instance of the
`Array` and `_DataFrame` variants, and for the container variants provided
the declared item type is a literal and the instance is nonempty with every
element of exactly the declared item class (`round_trip_cond`): then the Type
inferred from the instance also checks cleanly against the declared Type. -/
theorem claim_C1 :
    (∀ (t u : Ty) (r : Bool), check_schema t (.ty u) r = check_as_type t u r) ∧
    (∀ (t : Ty) (v : Value) (r : Bool),
      check_schema t (.val v) r = check_as_instance t v r) ∧
    (∀ (t : Ty) (v : Value) (t2 : Ty),
      round_trip_cond t v = true →
      check_schema t (.val v) false = .ok [] →
      infer_value v = some t2 →
      check_schema t (.ty t2) false = .ok []) := by
  refine ⟨fun t u r => rfl, fun t v r => rfl, ?_⟩
  intro t v t2 hcond hval hinf
  replace hval : check_as_instance t v false = .ok [] := hval
  show check_as_type t t2 false = .ok []
  cases t with
  | lit b => simp [round_trip_cond] at hcond
  | tlist it =>
    cases it with
    | lit b =>
      cases v with
      | vlist vs =>
        simp only [round_trip_cond, Bool.and_eq_true, List.all_eq_true,
          beq_iff_eq] at hcond
        obtain ⟨hne, hall⟩ := hcond
        cases vs with
        | nil => simp at hne
        | cons v0 rest =>
          simp only [infer_value, Option.some.injEq] at hinf
          have h0 : classTag v0 = b := hall v0 (List.mem_cons_self _ _)
          have hrest : (rest.all fun u => classTag u == classTag v0) = true := by
            rw [List.all_eq_true]
            intro u hu
            rw [beq_iff_eq, hall u (List.mem_cons_of_mem _ hu), h0]
          rw [← hinf]
          simp [check_as_type, tyClass, item_tag, container_infer_tag,
            hrest, h0]
          rw [if_pos (fun u hu => hall u (List.mem_cons_of_mem _ hu))]
      | prim tag => simp [round_trip_cond] at hcond
      | vtuple vs => simp [round_trip_cond] at hcond
      | varray a s => simp [round_trip_cond] at hcond
      | vframe cols => simp [round_trip_cond] at hcond
    | tlist x => cases v <;> simp [round_trip_cond] at hcond
    | ttuple x => cases v <;> simp [round_trip_cond] at hcond
    | array a sh => cases v <;> simp [round_trip_cond] at hcond
    | frame d => cases v <;> simp [round_trip_cond] at hcond
  | ttuple it =>
    cases it with
    | lit b =>
      cases v with
      | vtuple vs =>
        simp only [round_trip_cond, Bool.and_eq_true, List.all_eq_true,
          beq_iff_eq] at hcond
        obtain ⟨hne, hall⟩ := hcond
        cases vs with
        | nil => simp at hne
        | cons v0 rest =>
          simp only [infer_value, Option.some.injEq] at hinf
          have h0 : classTag v0 = b := hall v0 (List.mem_cons_self _ _)
          have hrest : (rest.all fun u => classTag u == classTag v0) = true := by
            rw [List.all_eq_true]
            intro u hu
            rw [beq_iff_eq, hall u (List.mem_cons_of_mem _ hu), h0]
          rw [← hinf]
          simp [check_as_type, tyClass, item_tag, container_infer_tag,
            hrest, h0]
          rw [if_pos (fun u hu => hall u (List.mem_cons_of_mem _ hu))]
      | prim tag => simp [round_trip_cond] at hcond
      | vlist vs => simp [round_trip_cond] at hcond
      | varray a s => simp [round_trip_cond] at hcond
      | vframe cols => simp [round_trip_cond] at hcond
    | tlist x => cases v <;> simp [round_trip_cond] at hcond
    | ttuple x => cases v <;> simp [round_trip_cond] at hcond
    | array a sh => cases v <;> simp [round_trip_cond] at hcond
    | frame d => cases v <;> simp [round_trip_cond] at hcond
  | array dt shp =>
    cases v with
    | varray dt2 s =>
      simp only [check_as_instance] at hval
      split at hval
      · rename_i hdt
        split at hval
        · rename_i hsh
          simp only [infer_value, Option.some.injEq] at hinf
          rw [← hinf]
          have hdt2 : dt2 = dt := beq_iff_eq.mp hdt
          subst hdt2
          simp [check_as_type, tyClass, hsh]
        · simp at hval
      · simp at hval
    | prim tag => simp [check_as_instance] at hval
    | vlist vs => simp [check_as_instance] at hval
    | vtuple vs => simp [check_as_instance] at hval
    | vframe cols => simp [check_as_instance] at hval
  | frame d =>
    cases v with
    | vframe cols =>
      simp only [check_as_instance] at hval
      simp only [infer_value, Option.some.injEq] at hinf
      rw [← hinf]
      rw [check_as_type]
      simp only [tyClass, bne_self_eq_false, Bool.false_eq_true, if_false]
      exact hval
    | prim tag => simp [check_as_instance] at hval
    | vlist vs => simp [check_as_instance] at hval
    | vtuple vs => simp [check_as_instance] at hval
    | varray a s => simp [check_as_instance] at hval

/-- Witness for C1: the spec example.  `Array(float64, (2, 1))` accepts the
2x1 float matrix, the Type inferred from that matrix is
`Array(float64, (2, 1))`, and checking the inferred Type against the declared
Type succeeds. -/
theorem claim_C1_witness :
    round_trip_cond (.array "float64" (some [some 2, some 1]))
      (.varray "float64" [2, 1]) = true ∧
    check_schema (.array "float64" (some [some 2, some 1]))
      (.val (.varray "float64" [2, 1])) false = .ok [] ∧
    infer_value (.varray "float64" [2, 1])
      = some (.array "float64" (some [some 2, some 1])) ∧
    check_schema (.array "float64" (some [some 2, some 1]))
      (.ty (.array "float64" (some [some 2, some 1]))) false = .ok [] :=
  ⟨by decide, by decide, by decide,
   claim_C1.2.2 (.array "float64" (some [some 2, some 1]))
     (.varray "float64" [2, 1]) (.array "float64" (some [some 2, some 1]))
     (by decide) (by decide) (by decide)⟩

end SchemaFlow
